import Mathlib

/-!
Shallow embedding of the test-mixin library (unittest_mixins/mixins.py):
the delayed-assertion collector, the environment-variable tracker, the
per-class temp-directory usage tracker with its badness verdict, the
make_file guard, the temp-directory naming scheme, and the cleanup
registration/execution order of TempDirMixin.setUp.
-/

/- == DelayedAssertionMixin (mixins.py lines 206-256) ================== -/

/-- One step of the body of a `with self.delayed_assertions():` block, as it
matters to the collector: either a call to `self.fail(msg)` (every supported
assertion reports its failure through `self.fail`), or a non-assertion
exception being raised.  A raised exception unwinds out of the block, so steps
after it never run; an intercepted `fail` returns normally. -/
inductive BodyStep where
  | failCall (msg : String)
  | raiseErr (e : String)

deriving instance DecidableEq for BodyStep

/-- State of the mixin: whether `self.fail` is currently the `_delayed_fail`
stand-in, and the `_delayed_assertions` list. -/
structure DAState where
  failDelayed : Bool
  collected : List String

deriving instance DecidableEq for DAState

/-- Outcome of the scoped block as the test engine sees it: normal return, an
`AssertionError` raised through `self.fail` (a test failure), or a
non-assertion exception (a test error). -/
inductive ScopeOutcome where
  | passed
  | failure (msg : String)
  | error (e : String)

deriving instance DecidableEq for ScopeOutcome

/-- Run the block body while `self.fail` is `_delayed_fail`: each `fail` call
appends its message and execution continues; a raised exception stops the body
and is reported.  Returns the collected messages and the exception if any. -/
def collectBody : List BodyStep → List String × Option String
  | [] => ([], none)
  | BodyStep.failCall m :: rest => (m :: (collectBody rest).1, (collectBody rest).2)
  | BodyStep.raiseErr e :: _ => ([], some e)

/-- The `delayed_assertions` context manager.  On entry it sets
`self._delayed_assertions = []` and replaces `self.fail`; the `finally` clause
restores `self.fail` before anything else happens on exit.  If the body raised,
that exception propagates (the aggregation code after the try/finally is
skipped).  Otherwise, a single collected message is re-raised unmodified, and
two or more are joined with a single newline under the
`"<N> failed assertions:\n"` header.  The prior state is overwritten on entry,
hence the unused state argument. -/
def delayed_assertions (_s : DAState) (body : List BodyStep) : DAState × ScopeOutcome :=
  let msgs := (collectBody body).1
  match (collectBody body).2 with
  | some e => (⟨false, msgs⟩, ScopeOutcome.error e)
  | none =>
    if msgs = [] then (⟨false, msgs⟩, ScopeOutcome.passed)
    else if msgs.length = 1 then (⟨false, msgs⟩, ScopeOutcome.failure msgs.headI)
    else (⟨false, msgs⟩, ScopeOutcome.failure
      (toString msgs.length ++ " failed assertions:\n" ++ String.intercalate "\n" msgs))

/-- Aggregated message exactly as the spec words it: the collected messages
joined by a blank line (two consecutive newlines) between entries.  Declared
only to be compared with what `delayed_assertions` actually raises. -/
def spec_blank_line_message (msgs : List String) : String :=
  toString msgs.length ++ " failed assertions:\n" ++ String.intercalate "\n\n" msgs

/- == TempDirMixin._ClassBehavior (mixins.py lines 376-423) ============ -/

/-- Per-class usage record (`_ClassBehavior`).  `klassName` stands for
`self.klass.__name__`, which `_class_behavior` assigns before any use. -/
structure ClassBehavior where
  klassName : String
  tests : Nat
  skipped : Nat
  temp_dir : Bool
  no_files_ok : Bool
  tests_making_files : Nat
  test_method_made_any_files : Bool

deriving instance DecidableEq for ClassBehavior

/-- A freshly created `_ClassBehavior()` for the class named `name`. -/
def ClassBehavior.new (name : String) : ClassBehavior :=
  { klassName := name
    tests := 0
    skipped := 0
    temp_dir := true
    no_files_ok := false
    tests_making_files := 0
    test_method_made_any_files := false }

/-- The record updates done by `TempDirMixin.setUp` (lines 327-330): count the
test and store the class options last-seen. -/
def setUpBehavior (b : ClassBehavior) (run_in_temp_dir no_files_in_temp_dir : Bool) :
    ClassBehavior :=
  { b with
    tests := b.tests + 1
    temp_dir := run_in_temp_dir
    no_files_ok := no_files_in_temp_dir }

/-- The tracker side of `make_file` (line 365): mark that a file was made. -/
def markMadeFile (b : ClassBehavior) : ClassBehavior :=
  { b with test_method_made_any_files := true }

/-- `TempDirMixin._check_behavior` (lines 334-339), run as a cleanup of every
test: if the flag is set, count the test as one that made files.  The source
never clears the flag. -/
def check_behavior (b : ClassBehavior) : ClassBehavior :=
  if b.test_method_made_any_files then
    { b with tests_making_files := b.tests_making_files + 1 }
  else b

/-- `TempDirMixin.skipTest` (lines 349-352): count the skip on the record. -/
def skipTestBehavior (b : ClassBehavior) : ClassBehavior :=
  { b with skipped := b.skipped + 1 }

/-- One test of a temp-dir class run to completion: setUp updates, optionally a
`make_file` call during the body, then the `_check_behavior` cleanup. -/
def runOneTest (b : ClassBehavior) (makesFile : Bool) : ClassBehavior :=
  check_behavior
    (if makesFile then markMadeFile (setUpBehavior b true false)
     else setUpBehavior b true false)

/-- A sequence of tests of one class, each flagged by whether its body calls
`make_file`. -/
def runTests (b : ClassBehavior) : List Bool → ClassBehavior
  | [] => b
  | f :: fs => runTests (runOneTest b f) fs

/-- `_ClassBehavior.badness` (lines 387-406): no verdict when every test was
skipped (or none ran); otherwise the "Inefficient" line when the class used a
temp dir, no test made files, and files were not declared optional. -/
def ClassBehavior.badness (b : ClassBehavior) : Option String :=
  let bad : String :=
    if b.tests ≤ b.skipped then ""
    else if b.temp_dir && b.tests_making_files == 0 then
      if !b.no_files_ok then "Inefficient" else ""
    else ""
  if bad ≠ "" then
    some (bad ++ ": " ++ b.klassName ++ " ran " ++ toString b.tests ++ " tests, "
      ++ toString b.tests_making_files ++ " made files in a temp directory")
  else none

/- == TempDirMixin.make_file (mixins.py lines 360-367) ================= -/

/-- How a `make_file` call ends for the test engine: the guard's
`AssertionError` (which unittest classifies as a test failure, not an error),
or the created file's name. -/
inductive MakeFileResult where
  | failure (msg : String)
  | ok (filename : String)

deriving instance DecidableEq for MakeFileResult

/-- `TempDirMixin.make_file`: asserts `self.run_in_temp_dir` first (so on a
non-temp-dir test nothing below the assert runs), then marks the tracker and
creates the file.  `files` is the list of files created so far in the temp
directory. -/
def TempDirMixin_make_file (run_in_temp_dir : Bool) (b : ClassBehavior)
    (files : List String) (filename : String) :
    ClassBehavior × List String × MakeFileResult :=
  if run_in_temp_dir then
    (markMadeFile b, files ++ [filename], MakeFileResult.ok filename)
  else
    (b, files, MakeFileResult.failure "Should only use make_file in temp directories")

/- == EnvironmentAwareMixin (mixins.py lines 141-169) ================== -/

/-- State of one environment-aware test: the process environment (a variable
maps to `some` value or is absent) and `self._environ_undos`, a mapping kept in
insertion order from a name to its pre-mutation value (`none` recording "was
absent"). -/
structure EnvState where
  environ : String → Option String
  undos : List (String × Option String)

/-- Lookup in the undo log (first entry with the key; the log only ever holds
one entry per key, appended on first touch). -/
def lookupUndo : List (String × Option String) → String → Option (Option String)
  | [], _ => none
  | (k, v) :: rest, n => if k = n then some v else lookupUndo rest n

/-- `set_environ(name, value)` (lines 152-161): record the current value on
first touch of `name`, then set it. -/
def set_environ (s : EnvState) (name value : String) : EnvState :=
  { environ := fun n => if n = name then some value else s.environ n
    undos :=
      match lookupUndo s.undos name with
      | some _ => s.undos
      | none => s.undos ++ [(name, s.environ name)] }

/-- Modelled from the spec: the `unset(name)` operation (`del_environ`, which
the repository's tests exercise but whose definition is not among the provided
mixins sources): same recording rule as `set` on the first touch of `name`,
then the variable is removed if present; removal of an already absent variable
is a no-op, but the recording still occurs on first touch. -/
def del_environ (s : EnvState) (name : String) : EnvState :=
  { environ := fun n => if n = name then none else s.environ n
    undos :=
      match lookupUndo s.undos name with
      | some _ => s.undos
      | none => s.undos ++ [(name, s.environ name)] }

/-- Apply the recorded undo entries in order: restore each name to its
original value, deleting it (mapping it to `none`) when the record says it was
absent. -/
def restoreUndos : List (String × Option String) → (String → Option String) →
    (String → Option String)
  | [], env => env
  | (k, v) :: rest, env => restoreUndos rest (fun m => if m = k then v else env m)

/-- `_cleanup_environ` (lines 163-169), run once as a cleanup of the test. -/
def cleanup_environ (s : EnvState) : EnvState :=
  { s with environ := restoreUndos s.undos s.environ }

/-- A test body's sequence of `set_environ` calls. -/
def applySets (s : EnvState) : List (String × String) → EnvState
  | [] => s
  | (n, v) :: rest => applySets (set_environ s n v) rest

/-- Number of undo-log entries for the name `n`: how many times the single
restoration pass touches `n`. -/
def countKey (u : List (String × Option String)) (n : String) : Nat :=
  u.countP (fun p => p.1 == n)

/-- Last entry for a key in the undo log (the one whose value survives the
restoration pass, were there several). -/
def lookupLast : List (String × Option String) → String → Option (Option String)
  | [], _ => none
  | (k, v) :: rest, n =>
    match lookupLast rest n with
    | some w => some w
    | none => if k = n then some v else none

/-- Invariant tying a test's state to the environment `base` it started from:
every undo entry holds the started-from value of its name, a name with no
entry still has its started-from value, and no name has two entries. -/
def EnvInv (base : String → Option String) (s : EnvState) : Prop :=
  ∀ n, (lookupLast s.undos n).getD (s.environ n) = base n ∧ countKey s.undos n ≤ 1

/- == TempDirMixin._make_temp_dir (mixins.py lines 341-347) ============ -/

/-- Big-endian decimal digits of `r` (the digit list of its decimal
representation, `[0]` for zero). -/
def decDigits (r : Nat) : List Nat :=
  if r = 0 then [0] else (Nat.digits 10 r).reverse

/-- The `"%08d"` formatting of the drawn random number: its decimal digits,
zero-padded on the left to width 8. -/
def pad8 (r : Nat) : String :=
  String.mk (List.replicate (8 - (decDigits r).length) '0'
    ++ (decDigits r).map Nat.digitChar)

/-- Read a zero-padded decimal string back to the number it shows. -/
def decodePad (s : String) : Nat :=
  Nat.ofDigits 10 ((s.data.map (fun c => c.toNat - 48)).reverse)

/-- The default slug: `setUp` passes `"test_cover"`, which is also
`_make_temp_dir`'s default. -/
def default_temp_dir_slug : String := "test_cover"

/-- The generated directory name `"%s_%08d" % (slug, random.randint(0, 99999999))`
as a function of the drawn number `r`. -/
def make_temp_dir_name (slug : String) (r : Nat) : String :=
  slug ++ "_" ++ pad8 r

/-- The full path `os.path.join(tempfile.gettempdir(), name)`: the system temp
root joined with the generated name. -/
def make_temp_dir (tmpRoot slug : String) (r : Nat) : String :=
  tmpRoot ++ "/" ++ make_temp_dir_name slug r

/-- The paths generated by a run of independent tests whose random draws are
`rs`. -/
def temp_dir_paths (tmpRoot slug : String) (rs : List Nat) : List String :=
  rs.map (make_temp_dir tmpRoot slug)

/- == TempDirMixin.setUp cleanup registration (mixins.py 313-358) ====== -/

/-- The cleanup actions `TempDirMixin.setUp` registers (with `addCleanup`),
tagged by what they do.  `rmtree` deletes the directory recursively,
`chdirBack` restores the working directory (the cleanup registered by
`chdir`), and the rest do not touch the working directory or the
directory tree. -/
inductive Cleanup where
  | cleanupModules
  | restoreSysPath
  | rmtree (dir : String)
  | chdirBack (dir : String)
  | checkBehavior

deriving instance DecidableEq for Cleanup

/-- The process state the cleanups act on: the current working directory and
the set of existing directories. -/
structure FSState where
  cwd : String
  dirs : List String

deriving instance DecidableEq for FSState

/-- Effect of one cleanup action on the process state. -/
def runCleanup (s : FSState) : Cleanup → FSState
  | Cleanup.rmtree d => { s with dirs := s.dirs.erase d }
  | Cleanup.chdirBack c => { s with cwd := c }
  | _ => s

/-- Run a list of cleanup actions in order. -/
def runCleanups (s : FSState) : List Cleanup → FSState
  | [] => s
  | c :: rest => runCleanups (runCleanup s c) rest

/-- Whether, somewhere along the run, an `rmtree` executes while its target is
still the current working directory. -/
def rmtreeHitsCwd (s : FSState) : List Cleanup → Bool
  | [] => false
  | c :: rest =>
    (match c with
     | Cleanup.rmtree d => s.cwd == d
     | _ => false) || rmtreeHitsCwd (runCleanup s c) rest

/-- The cleanups registered during `TempDirMixin.setUp` with
`run_in_temp_dir` true, in registration order: the super-class mixins register
theirs first (module cleanup, then sys.path restore), then `_make_temp_dir`
registers the recursive delete of the fresh directory, then `chdir` registers
the restore of the original working directory, and last comes
`_check_behavior`. -/
def tempDirSetupCleanups (origDir tempDir : String) : List Cleanup :=
  [Cleanup.cleanupModules, Cleanup.restoreSysPath, Cleanup.rmtree tempDir,
   Cleanup.chdirBack origDir, Cleanup.checkBehavior]

/-- The engine runs registered cleanups in reverse order of registration. -/
def executionOrder (regs : List Cleanup) : List Cleanup := regs.reverse

/- == Supporting lemmas ================================================ -/

/-- A body of fail calls only: every message is collected, no exception. -/
lemma collectBody_map_failCall (msgs : List String) :
    collectBody (msgs.map BodyStep.failCall) = (msgs, none) := by
  induction msgs with
  | nil => rfl
  | cons m ms ih => simp [collectBody, ih]

/-- A body of fail calls followed by a raised exception: the messages before
the exception are collected and the exception is reported. -/
lemma collectBody_append_raise (msgs : List String) (e : String) (rest : List BodyStep) :
    collectBody (msgs.map BodyStep.failCall ++ BodyStep.raiseErr e :: rest)
      = (msgs, some e) := by
  induction msgs with
  | nil => rfl
  | cons m ms ih => simp [collectBody, ih]

/-- Restoration acts pointwise: a name ends at its last recorded value, or
keeps its current value if it has no entry. -/
lemma restoreUndos_apply (u : List (String × Option String))
    (env : String → Option String) (n : String) :
    restoreUndos u env n = (lookupLast u n).getD (env n) := by
  induction u generalizing env with
  | nil => rfl
  | cons p rest ih =>
    obtain ⟨k, v⟩ := p
    simp only [restoreUndos, lookupLast]
    rw [ih]
    cases hr : lookupLast rest n with
    | some w => simp
    | none =>
      by_cases hk : k = n
      · subst hk
        simp
      · have hk2 : ¬n = k := fun hh => hk hh.symm
        simp [hk, hk2]

/-- Looking up after appending one entry. -/
lemma lookupLast_append_one (u : List (String × Option String)) (k : String)
    (v : Option String) (n : String) :
    lookupLast (u ++ [(k, v)]) n = if k = n then some v else lookupLast u n := by
  induction u with
  | nil => rfl
  | cons p rest ih =>
    obtain ⟨a, b⟩ := p
    simp only [List.cons_append, lookupLast, List.append_eq]
    rw [ih]
    by_cases h : k = n
    · simp [h]
    · simp [h]

/-- The two lookups agree on which keys have an entry. -/
lemma lookupLast_eq_none_iff (u : List (String × Option String)) (n : String) :
    lookupLast u n = none ↔ lookupUndo u n = none := by
  induction u with
  | nil => simp [lookupLast, lookupUndo]
  | cons p rest ih =>
    obtain ⟨k, v⟩ := p
    simp only [lookupLast, lookupUndo]
    cases hr : lookupLast rest n with
    | some w =>
      have hne : lookupUndo rest n ≠ none := fun hh => by
        rw [ih.mpr hh] at hr
        exact Option.noConfusion hr
      by_cases hk : k = n <;> simp [hk, hne]
    | none =>
      by_cases hk : k = n <;> simp [hk, ih.mp hr]

/-- A key with no entry contributes nothing to the count. -/
lemma countKey_eq_zero_of_lookupUndo_none (u : List (String × Option String))
    (n : String) (h : lookupUndo u n = none) : countKey u n = 0 := by
  induction u with
  | nil => rfl
  | cons p rest ih =>
    obtain ⟨k, v⟩ := p
    simp only [lookupUndo] at h
    by_cases hk : k = n
    · rw [if_pos hk] at h
      exact Option.noConfusion h
    · rw [if_neg hk] at h
      have hb : (k == n) = false := by
        simpa using hk
      simp only [countKey, List.countP_cons] at *
      simp [hb, ih h]

/-- A key with an entry counts at least once. -/
lemma one_le_countKey_of_lookupUndo_some (u : List (String × Option String))
    (n : String) (v : Option String) (h : lookupUndo u n = some v) :
    1 ≤ countKey u n := by
  induction u with
  | nil => simp [lookupUndo] at h
  | cons p rest ih =>
    obtain ⟨k, w⟩ := p
    simp only [lookupUndo] at h
    simp only [countKey, List.countP_cons]
    by_cases hk : k = n
    · simp [hk]
    · rw [if_neg hk] at h
      have := ih h
      simp only [countKey] at this
      omega

/-- Appending entries does not disturb an existing first entry. -/
lemma lookupUndo_append_left (u l : List (String × Option String)) (n : String)
    (v : Option String) (h : lookupUndo u n = some v) :
    lookupUndo (u ++ l) n = some v := by
  induction u with
  | nil => simp [lookupUndo] at h
  | cons p rest ih =>
    obtain ⟨k, w⟩ := p
    simp only [lookupUndo, List.cons_append] at *
    by_cases hk : k = n
    · simpa [hk] using h
    · rw [if_neg hk] at h ⊢
      exact ih h

/-- With no entry on the left, the lookup falls through to the right part. -/
lemma lookupUndo_append_right (u l : List (String × Option String)) (n : String)
    (h : lookupUndo u n = none) :
    lookupUndo (u ++ l) n = lookupUndo l n := by
  induction u with
  | nil => rfl
  | cons p rest ih =>
    obtain ⟨k, w⟩ := p
    simp only [lookupUndo, List.cons_append] at *
    by_cases hk : k = n
    · simp [hk] at h
    · rw [if_neg hk] at h ⊢
      exact ih h

/-- The invariant holds at the start of a test (empty undo log). -/
lemma envInv_start (s : EnvState) (h : s.undos = []) : EnvInv s.environ s := by
  intro n
  rw [h]
  exact ⟨rfl, by simp [countKey]⟩

/-- `set_environ` preserves the invariant. -/
lemma envInv_set (base : String → Option String) (s : EnvState)
    (name value : String) (h : EnvInv base s) :
    EnvInv base (set_environ s name value) := by
  intro n
  obtain ⟨h1, h2⟩ := h n
  simp only [set_environ]
  cases hl : lookupUndo s.undos name with
  | some w =>
    refine ⟨?_, h2⟩
    by_cases hn : n = name
    · subst hn
      have hne : lookupLast s.undos n ≠ none := fun hh => by
        rw [(lookupLast_eq_none_iff s.undos n).mp hh] at hl
        exact Option.noConfusion hl
      obtain ⟨w2, hw⟩ := Option.ne_none_iff_exists'.mp hne
      rw [hw] at h1 ⊢
      simpa using h1
    · rw [if_neg hn]
      exact h1
  | none =>
    constructor
    · rw [lookupLast_append_one]
      by_cases hn : name = n
      · subst hn
        have hnone : lookupLast s.undos name = none :=
          (lookupLast_eq_none_iff s.undos name).mpr hl
        rw [hnone] at h1
        rw [if_pos rfl]
        simpa using h1
      · rw [if_neg hn, if_neg (fun hh => hn hh.symm)]
        exact h1
    · simp only [countKey, List.countP_append] at *
      by_cases hn : name = n
      · subst hn
        have h0 : countKey s.undos name = 0 :=
          countKey_eq_zero_of_lookupUndo_none _ _ hl
        simp only [countKey] at h0
        simp [h0, List.countP_cons]
      · simp [List.countP_cons, hn, h2]

/-- A whole body of `set_environ` calls preserves the invariant. -/
lemma envInv_applySets (base : String → Option String) (s : EnvState)
    (ops : List (String × String)) (h : EnvInv base s) :
    EnvInv base (applySets s ops) := by
  induction ops generalizing s with
  | nil => exact h
  | cons p rest ih =>
    obtain ⟨a, b⟩ := p
    exact ih _ (envInv_set base s a b h)

/-- After `set_environ s name v` the undo log has an entry for `name`. -/
lemma lookupUndo_some_after_set (s : EnvState) (name value : String) :
    ∃ w, lookupUndo (set_environ s name value).undos name = some w := by
  simp only [set_environ]
  cases hl : lookupUndo s.undos name with
  | some w => exact ⟨w, hl⟩
  | none =>
    refine ⟨s.environ name, ?_⟩
    rw [lookupUndo_append_right _ _ _ hl]
    simp [lookupUndo]

/-- `set_environ` never removes an existing undo entry. -/
lemma lookupUndo_some_preserved_set (s : EnvState) (name value n : String)
    (v : Option String) (h : lookupUndo s.undos n = some v) :
    ∃ w, lookupUndo (set_environ s name value).undos n = some w := by
  simp only [set_environ]
  cases hl : lookupUndo s.undos name with
  | some w => exact ⟨v, h⟩
  | none => exact ⟨v, lookupUndo_append_left _ _ _ _ h⟩

/-- An undo entry, once present, survives the rest of the body. -/
lemma applySets_preserves_lookup (s : EnvState) (ops : List (String × String))
    (n : String) (v : Option String) (h : lookupUndo s.undos n = some v) :
    ∃ w, lookupUndo (applySets s ops).undos n = some w := by
  induction ops generalizing s v with
  | nil => exact ⟨v, h⟩
  | cons p rest ih =>
    obtain ⟨a, b⟩ := p
    obtain ⟨w, hw⟩ := lookupUndo_some_preserved_set s a b n v h
    exact ih _ _ hw

/-- Every name the body sets ends with an undo entry. -/
lemma applySets_mem_keys (s : EnvState) (ops : List (String × String))
    (n : String) (hmem : n ∈ ops.map Prod.fst) :
    ∃ w, lookupUndo (applySets s ops).undos n = some w := by
  induction ops generalizing s with
  | nil => simp at hmem
  | cons p rest ih =>
    obtain ⟨a, b⟩ := p
    simp only [applySets]
    by_cases hn : n = a
    · subst hn
      obtain ⟨w, hw⟩ := lookupUndo_some_after_set s n b
      exact applySets_preserves_lookup (set_environ s n b) rest n w hw
    · have hmem2 : n ∈ rest.map Prod.fst := by
        simpa [hn] using hmem
      exact ih (set_environ s a b) hmem2

/-- A block of zero digits contributes no value. -/
lemma ofDigits_replicate_zero (b k : ℕ) :
    Nat.ofDigits b (List.replicate k 0) = 0 := by
  induction k with
  | zero => rfl
  | succ k ih => simp [List.replicate_succ, Nat.ofDigits_cons, ih]

/-- Every decimal digit of `r` is below 10. -/
lemma decDigits_lt (r : ℕ) : ∀ d ∈ decDigits r, d < 10 := by
  intro d hd
  unfold decDigits at hd
  by_cases h : r = 0
  · rw [if_pos h] at hd
    simp at hd
    omega
  · rw [if_neg h, List.mem_reverse] at hd
    exact Nat.digits_lt_base (by norm_num) hd

/-- Reading a digit character back gives the digit. -/
lemma digitChar_val : ∀ d, d < 10 → (Nat.digitChar d).toNat - 48 = d := by
  decide

/-- The zero-padded formatting loses no information: decoding it returns the
formatted number. -/
lemma decodePad_pad8 (r : ℕ) : decodePad (pad8 r) = r := by
  unfold decodePad pad8
  rw [show (String.mk (List.replicate (8 - (decDigits r).length) '0'
      ++ (decDigits r).map Nat.digitChar)).data
    = List.replicate (8 - (decDigits r).length) '0'
      ++ (decDigits r).map Nat.digitChar from rfl]
  rw [List.map_append, List.map_map, List.map_replicate]
  rw [show Char.toNat '0' - 48 = 0 from rfl]
  rw [List.map_congr_left
    (fun d hd => by
      simp only [Function.comp]
      exact digitChar_val d (decDigits_lt r d hd))]
  rw [List.map_id', List.reverse_append, List.reverse_replicate,
    Nat.ofDigits_append, ofDigits_replicate_zero, Nat.mul_zero, Nat.add_zero]
  unfold decDigits
  by_cases h : r = 0
  · rw [if_pos h]
    simp [Nat.ofDigits_cons, h]
  · rw [if_neg h, List.reverse_reverse, Nat.ofDigits_digits]

/-- Two different draws never format to the same 8-digit string. -/
lemma pad8_injective : Function.Injective pad8 := by
  intro a b h
  have h2 := congrArg decodePad h
  rwa [decodePad_pad8, decodePad_pad8] at h2

/-- Two different draws never give the same generated path (with the same temp
root and slug). -/
lemma make_temp_dir_inj (tmpRoot slug : String) (r1 r2 : ℕ)
    (h : make_temp_dir tmpRoot slug r1 = make_temp_dir tmpRoot slug r2) :
    r1 = r2 := by
  apply pad8_injective
  apply String.ext
  unfold make_temp_dir make_temp_dir_name at h
  have hd := congrArg String.data h
  simp only [String.data_append, List.append_assoc] at hd
  exact List.append_cancel_left (List.append_cancel_left
    (List.append_cancel_left (List.append_cancel_left hd)))

/- == Claim theorems =================================================== -/

/-- C2: a non-assertion exception raised inside a `delayed_assertions` scope is
re-raised unchanged (as a test error, not suppressed and not replaced by an
aggregated assertion failure), the intercepted messages collected before it are
not extended by it, and `self.fail` is restored (failDelayed is false) before
the exception propagates. -/
theorem delayed_assertions_error_propagation (s : DAState) (msgs : List String)
    (e : String) (rest : List BodyStep) :
    delayed_assertions s (msgs.map BodyStep.failCall ++ BodyStep.raiseErr e :: rest)
      = (⟨false, msgs⟩, ScopeOutcome.error e) := by
  simp [delayed_assertions, collectBody_append_raise]

/-- C1 (counterexample): with the two collected messages "a" and "b" the scope
raises the message that joins them with a single newline, not the blank-line
(two consecutive newlines) form the claim states. -/
theorem delayed_assertions_blank_line_counterexample :
    (delayed_assertions ⟨false, []⟩ [BodyStep.failCall "a", BodyStep.failCall "b"]).2
        ≠ ScopeOutcome.failure (spec_blank_line_message ["a", "b"])
    ∧ (delayed_assertions ⟨false, []⟩ [BodyStep.failCall "a", BodyStep.failCall "b"]).2
        = ScopeOutcome.failure "2 failed assertions:\na\nb" := by
  decide

/-- C1 (amended): exiting the scope normally with two or more collected
failures raises exactly one failure whose message is
`"<N> failed assertions:\n"` followed by the collected messages in collection
order, joined by a single newline between entries; with exactly one collected
failure the raised message is that failure's message unmodified. -/
theorem delayed_assertions_message_spec (s : DAState) (msgs : List String)
    (m : String) (h : 2 ≤ msgs.length) :
    (delayed_assertions s (msgs.map BodyStep.failCall)).2
        = ScopeOutcome.failure (toString msgs.length ++ " failed assertions:\n"
            ++ String.intercalate "\n" msgs)
    ∧ (delayed_assertions s [BodyStep.failCall m]).2 = ScopeOutcome.failure m := by
  constructor
  · have h1 : msgs ≠ [] := by
      intro hh
      rw [hh] at h
      simp at h
    have h2 : msgs.length ≠ 1 := by omega
    simp [delayed_assertions, collectBody_map_failCall, h1, h2]
  · simp [delayed_assertions, collectBody, List.headI]

/-- C1 (amended, witness): the two-message and one-message cases evaluated at
concrete messages. -/
theorem delayed_assertions_message_spec_witness :
    2 ≤ (["a", "b"] : List String).length
    ∧ ((delayed_assertions ⟨false, []⟩ ((["a", "b"] : List String).map BodyStep.failCall)).2
        = ScopeOutcome.failure (toString (["a", "b"] : List String).length
            ++ " failed assertions:\n" ++ String.intercalate "\n" ["a", "b"])
      ∧ (delayed_assertions ⟨false, []⟩ [BodyStep.failCall "x"]).2
          = ScopeOutcome.failure "x") :=
  ⟨by decide, delayed_assertions_message_spec ⟨false, []⟩ ["a", "b"] "x" (by decide)⟩

/-- C9: when a non-assertion exception propagates out of a scope, the
aggregated failure over the messages collected in that scope is not raised, and
the next scope behaves exactly as one started from a pristine state (the entry
resets the failure list), so the collected messages are discarded and never
reported. -/
theorem delayed_assertions_error_discards_collected (s : DAState)
    (body1 body2 : List BodyStep) (e : String)
    (h : (delayed_assertions s body1).2 = ScopeOutcome.error e) :
    (delayed_assertions s body1).2
        ≠ ScopeOutcome.failure (toString (delayed_assertions s body1).1.collected.length
            ++ " failed assertions:\n"
            ++ String.intercalate "\n" (delayed_assertions s body1).1.collected)
    ∧ delayed_assertions (delayed_assertions s body1).1 body2
        = delayed_assertions ⟨false, []⟩ body2 := by
  refine ⟨?_, rfl⟩
  rw [h]
  simp

/-- C9 (witness): a scope collecting "a" then raising "boom", followed by a
scope collecting "b". -/
theorem delayed_assertions_error_discards_collected_witness :
    (delayed_assertions ⟨false, []⟩ [BodyStep.failCall "a", BodyStep.raiseErr "boom"]).2
        = ScopeOutcome.error "boom"
    ∧ ((delayed_assertions ⟨false, []⟩ [BodyStep.failCall "a", BodyStep.raiseErr "boom"]).2
        ≠ ScopeOutcome.failure
            (toString (delayed_assertions ⟨false, []⟩
                [BodyStep.failCall "a", BodyStep.raiseErr "boom"]).1.collected.length
              ++ " failed assertions:\n"
              ++ String.intercalate "\n" (delayed_assertions ⟨false, []⟩
                  [BodyStep.failCall "a", BodyStep.raiseErr "boom"]).1.collected)
      ∧ delayed_assertions (delayed_assertions ⟨false, []⟩
            [BodyStep.failCall "a", BodyStep.raiseErr "boom"]).1 [BodyStep.failCall "b"]
          = delayed_assertions ⟨false, []⟩ [BodyStep.failCall "b"]) :=
  ⟨by decide, delayed_assertions_error_discards_collected ⟨false, []⟩
    [BodyStep.failCall "a", BodyStep.raiseErr "boom"] [BodyStep.failCall "b"] "boom"
    (by decide)⟩

/-- C3 (code divergence): the made-a-file flag is never cleared, so after a
test that made a file, the next test of the class starts with the flag still
set, and a two-test run where only the first test makes a file ends with
`tests_making_files = 2` instead of the per-test count 1 the claim states. -/
theorem tests_making_files_sticky_flag :
    (runOneTest (ClassBehavior.new "C") true).test_method_made_any_files = true
    ∧ (runTests (ClassBehavior.new "C") [true, false]).tests_making_files = 2 := by
  decide

/-- C4: `badness` yields no verdict when `tests ≤ skipped`; otherwise exactly
the "Inefficient" line when the class used a temp directory, no test made
files, and files were not declared optional; and no verdict in every other
case. -/
theorem badness_characterization (b : ClassBehavior) :
    ClassBehavior.badness b =
      (if b.tests ≤ b.skipped then none
       else if b.temp_dir = true ∧ b.tests_making_files = 0 ∧ b.no_files_ok = false then
         some ("Inefficient: " ++ b.klassName ++ " ran " ++ toString b.tests
           ++ " tests, " ++ toString b.tests_making_files
           ++ " made files in a temp directory")
       else none) := by
  obtain ⟨name, tests, skipped, td, nfo, tmf, flag⟩ := b
  by_cases h1 : tests ≤ skipped <;> cases td <;> cases nfo <;> by_cases h2 : tmf = 0 <;>
    simp [ClassBehavior.badness, h1, h2]

/-- C6: with `run_in_temp_dir` false, `make_file` fails with the fixed
`AssertionError` message (an `AssertionError` surfaces as a test failure, not
an error), the usage tracker is not marked, and no file is created. -/
theorem make_file_requires_temp_dir (run_in_temp_dir : Bool) (b : ClassBehavior)
    (files : List String) (filename : String) (h : run_in_temp_dir = false) :
    TempDirMixin_make_file run_in_temp_dir b files filename
      = (b, files,
         MakeFileResult.failure "Should only use make_file in temp directories") := by
  subst h
  rfl

/-- C5: starting a test with an empty undo log, after any sequence of
`set_environ` calls the cleanup restores every name `n` to the value it had
before the test (so a name the test first set is restored to its value before
that first set, and a name absent before the test is absent again); the undo
log holds at most one entry per name, so the single restoration pass touches
`n` at most once, and exactly once when the test set `n` at all. -/
theorem set_environ_cleanup_restores (s0 : EnvState) (ops : List (String × String))
    (n : String) (h : s0.undos = []) :
    (cleanup_environ (applySets s0 ops)).environ n = s0.environ n
    ∧ countKey (applySets s0 ops).undos n ≤ 1
    ∧ (n ∈ ops.map Prod.fst → countKey (applySets s0 ops).undos n = 1) := by
  have hinv := envInv_applySets s0.environ s0 ops (envInv_start s0 h)
  obtain ⟨h1, h2⟩ := hinv n
  refine ⟨?_, h2, ?_⟩
  · simp only [cleanup_environ]
    rw [restoreUndos_apply]
    exact h1
  · intro hmem
    obtain ⟨w, hw⟩ := applySets_mem_keys s0 ops n hmem
    have hone := one_le_countKey_of_lookupUndo_some _ _ _ hw
    omega

/-- C5 (witness): a name set twice in one test is restored once, back to
absent. -/
theorem set_environ_cleanup_restores_witness :
    (⟨fun _ => none, []⟩ : EnvState).undos = []
    ∧ (cleanup_environ (applySets ⟨fun _ => none, []⟩ [("A", "x"), ("A", "y")])).environ "A"
        = none
    ∧ countKey (applySets (⟨fun _ => none, []⟩ : EnvState) [("A", "x"), ("A", "y")]).undos "A"
        = 1 :=
  ⟨rfl,
   (set_environ_cleanup_restores ⟨fun _ => none, []⟩ [("A", "x"), ("A", "y")] "A" rfl).1,
   (set_environ_cleanup_restores ⟨fun _ => none, []⟩ [("A", "x"), ("A", "y")] "A" rfl).2.2
     (by decide)⟩

/-- C7 (spec-modelled): on the first touch of a name, `del_environ` records the
name's current value (or absence) in the undo log, the variable is absent
afterwards (removed if present, a no-op if already absent), and the cleanup
restores the recorded state. -/
theorem del_environ_records_and_removes (s : EnvState) (name : String)
    (h : lookupUndo s.undos name = none) :
    lookupUndo (del_environ s name).undos name = some (s.environ name)
    ∧ (del_environ s name).environ name = none
    ∧ (cleanup_environ (del_environ s name)).environ name = s.environ name := by
  refine ⟨?_, ?_, ?_⟩
  · simp only [del_environ, h]
    rw [lookupUndo_append_right _ _ _ h]
    simp [lookupUndo]
  · simp [del_environ]
  · simp only [cleanup_environ, del_environ, h]
    rw [restoreUndos_apply, lookupLast_append_one]
    simp

/-- C7 (witness): deleting a present variable on first touch records its value,
removes it, and the cleanup brings it back. -/
theorem del_environ_records_and_removes_witness :
    lookupUndo (⟨fun _ => some "v", []⟩ : EnvState).undos "HOME" = none
    ∧ (lookupUndo (del_environ ⟨fun _ => some "v", []⟩ "HOME").undos "HOME" = some (some "v")
      ∧ (del_environ (⟨fun _ => some "v", []⟩ : EnvState) "HOME").environ "HOME" = none
      ∧ (cleanup_environ (del_environ ⟨fun _ => some "v", []⟩ "HOME")).environ "HOME"
          = some "v") :=
  ⟨rfl, del_environ_records_and_removes ⟨fun _ => some "v", []⟩ "HOME" rfl⟩

/-- C6 (witness): the guard evaluated on a concrete non-temp-dir test. -/
theorem make_file_requires_temp_dir_witness :
    (false = false)
    ∧ TempDirMixin_make_file false (ClassBehavior.new "M") [] "f.txt"
        = (ClassBehavior.new "M", [],
           MakeFileResult.failure "Should only use make_file in temp directories") :=
  ⟨rfl, make_file_requires_temp_dir false (ClassBehavior.new "M") [] "f.txt" rfl⟩

/-- C8 (counterexample): pairwise distinctness of the generated paths does not
hold for every run, because two independent tests can draw the same random
number: two draws of 0 give the same path twice. -/
theorem temp_dir_paths_not_always_distinct :
    ¬ ∀ rs : List Nat,
        (temp_dir_paths "/tmp" default_temp_dir_slug rs).Pairwise
          (fun a b => a ≠ b) := by
  intro h
  have h2 := h [0, 0]
  simp [temp_dir_paths, List.pairwise_cons] at h2

/-- C8 (amended): whenever the N random draws are pairwise distinct, the N
generated paths (`"<slug>_<8-digit-zero-padded-number>"` under the temp root)
are pairwise distinct: the naming map is injective in the draw.  Equal draws
give equal paths, so distinctness holds exactly as often as the draws
differ. -/
theorem temp_dir_paths_distinct_of_distinct_draws (tmpRoot slug : String)
    (rs : List Nat) (h : rs.Pairwise (fun a b => a ≠ b)) :
    (temp_dir_paths tmpRoot slug rs).Pairwise (fun a b => a ≠ b) := by
  unfold temp_dir_paths
  refine List.Pairwise.map _ ?_ h
  intro a b hab hcontra
  exact hab (make_temp_dir_inj tmpRoot slug a b hcontra)

/-- C8 (amended, witness): two distinct draws under the default slug. -/
theorem temp_dir_paths_distinct_of_distinct_draws_witness :
    ([0, 1] : List Nat).Pairwise (fun a b => a ≠ b)
    ∧ (temp_dir_paths "/tmp" default_temp_dir_slug [0, 1]).Pairwise
        (fun a b => a ≠ b) :=
  ⟨by decide,
   temp_dir_paths_distinct_of_distinct_draws "/tmp" default_temp_dir_slug [0, 1]
     (by decide)⟩

/-- C10: `setUp` registers the recursive delete before the directory restore,
so in the engine's reverse-of-registration execution the directory restore runs
first; starting from the in-temp-dir state, no `rmtree` ever executes while its
target is the current working directory, and the working directory ends back at
its pre-test value. -/
theorem temp_dir_cleanup_order_safe (origDir tempDir : String) (ds : List String)
    (h : origDir ≠ tempDir) :
    executionOrder (tempDirSetupCleanups origDir tempDir)
        = [Cleanup.checkBehavior, Cleanup.chdirBack origDir, Cleanup.rmtree tempDir,
           Cleanup.restoreSysPath, Cleanup.cleanupModules]
    ∧ rmtreeHitsCwd ⟨tempDir, ds⟩
        (executionOrder (tempDirSetupCleanups origDir tempDir)) = false
    ∧ (runCleanups ⟨tempDir, ds⟩
        (executionOrder (tempDirSetupCleanups origDir tempDir))).cwd = origDir := by
  have hb : (origDir == tempDir) = false := beq_eq_false_iff_ne.mpr h
  refine ⟨rfl, ?_, rfl⟩
  simp [rmtreeHitsCwd, runCleanup, executionOrder, tempDirSetupCleanups, hb]

/-- C10 (witness): the cleanup run evaluated at concrete directories. -/
theorem temp_dir_cleanup_order_safe_witness :
    ("/home/u" : String) ≠ "/tmp/test_cover_00000001"
    ∧ (executionOrder (tempDirSetupCleanups "/home/u" "/tmp/test_cover_00000001")
        = [Cleanup.checkBehavior, Cleanup.chdirBack "/home/u",
           Cleanup.rmtree "/tmp/test_cover_00000001",
           Cleanup.restoreSysPath, Cleanup.cleanupModules]
      ∧ rmtreeHitsCwd ⟨"/tmp/test_cover_00000001", ["/tmp/test_cover_00000001"]⟩
          (executionOrder (tempDirSetupCleanups "/home/u" "/tmp/test_cover_00000001"))
          = false
      ∧ (runCleanups ⟨"/tmp/test_cover_00000001", ["/tmp/test_cover_00000001"]⟩
          (executionOrder (tempDirSetupCleanups "/home/u" "/tmp/test_cover_00000001"))).cwd
          = "/home/u") :=
  ⟨by decide,
   temp_dir_cleanup_order_safe "/home/u" "/tmp/test_cover_00000001"
     ["/tmp/test_cover_00000001"] (by decide)⟩
